import Mathlib

/-!
Verification development for the CipherChat end-to-end encryption core
(client crypto module and backup codec).

The JavaScript source is shallowly embedded in Lean.  Byte sequences are
modelled as `List Nat`, binary-to-text encodings and envelope documents as
natural numbers produced by injective, computably invertible codecs, and the
Web Crypto primitives (AES-GCM, RSA-OAEP, PBKDF2, SHA-256, getRandomValues)
as ideal symbolic primitives with explicit randomness:

* AES-GCM `encrypt` appends an authentication tag that is an injective
  function of (key, nonce, plaintext); `decrypt` recomputes and compares the
  tag, failing closed on any mismatch.  This is the standard idealisation of
  an AEAD: decryption succeeds exactly on honestly sealed inputs.
* RSA-OAEP wraps a payload together with the public key in an injective
  pairing; unwrapping checks the key and the canonical form of the payload,
  modelling the OAEP padding check.
* PBKDF2 is an injective function of (password bytes, salt, iterations),
  modelling an ideal pseudorandom function: distinct inputs give distinct
  derived keys.
* Randomness is an explicit byte tape `Nat → Nat` threaded through the
  functions that call getRandomValues or generateKey in the source.

All definitions are executable and all envelope codecs are computable in
both directions, so concrete inputs can be evaluated by `decide` and `rfl`.
-/

/-! ## Bit-stream codec: injective `List Nat` to `Nat` encoding

Lists of naturals are packed into a single natural through a prefix-free
binary stream.  The stream of a number is `true b0 true b1 ... false` with
the bits emitted least significant first; a list is the concatenation of the
streams of its elements; a bit list is read as a binary numeral under a
leading sentinel 1 bit.  Fuel-based recursion keeps every function kernel
reducible so that concrete envelopes evaluate by `decide`. -/

/-- Interpretation of a bit list as a natural number with a sentinel top bit,
injective on all bit lists. -/
def bitsToNat (bs : List Bool) : Nat :=
  bs.foldl (fun acc b => 2 * acc + cond b 1 0) 1

/-- Extraction of the bit list packed by `bitsToNat` (fuel recursion). -/
def natBitsAux : Nat → Nat → List Bool
  | 0, _ => []
  | fuel + 1, n =>
    if n ≤ 1 then [] else natBitsAux fuel (n / 2) ++ [decide (n % 2 = 1)]

/-- Inverse of `bitsToNat`. -/
def natToBits (n : Nat) : List Bool :=
  natBitsAux n n

/-- Prefix-free bit stream of one natural number, least significant bit
first (fuel recursion). -/
def encBitsAux : Nat → Nat → List Bool
  | 0, _ => []
  | fuel + 1, n =>
    if n = 0 then [false] else true :: decide (n % 2 = 1) :: encBitsAux fuel (n / 2)

/-- Prefix-free bit stream of one natural number. -/
def encBits (n : Nat) : List Bool :=
  encBitsAux (n + 1) n

/-- Concatenated bit stream of a list of naturals. -/
def byteStream : List Nat → List Bool
  | [] => []
  | a :: t => encBits a ++ byteStream t

/-- Injective encoding of a list of naturals as one natural. -/
def encL (l : List Nat) : Nat :=
  bitsToNat (byteStream l)

/-- Reading one prefix-free number from the front of a bit stream. -/
def decodeOne : List Bool → Option (Nat × List Bool)
  | false :: r => some (0, r)
  | true :: b :: r =>
    match decodeOne r with
    | some (m, r2) => some (2 * m + cond b 1 0, r2)
    | none => none
  | _ => none

/-- Reading a whole stream back into a list of naturals (fuel recursion). -/
def decListAux : Nat → List Bool → Option (List Nat)
  | _, [] => some []
  | 0, _ :: _ => none
  | fuel + 1, b :: bs =>
    match decodeOne (b :: bs) with
    | some (m, r) => (decListAux fuel r).map (fun l => m :: l)
    | none => none

/-- Partial inverse of `encL`: recovers the list from a valid encoding. -/
def decL (n : Nat) : Option (List Nat) :=
  decListAux (natToBits n).length (natToBits n)

/-! ## Strings: model of TextEncoder.encode and TextDecoder.decode

The source converts between JavaScript strings and byte arrays with
TextEncoder and TextDecoder.  The model uses the code points of the
characters; what matters for the embedded code is that encoding is
injective and decoding inverts it. -/

/-- Model of TextEncoder.encode. -/
def strToBytes (s : String) : List Nat :=
  s.data.map Char.toNat

/-- Model of TextDecoder.decode. -/
def bytesToStr (l : List Nat) : String :=
  String.mk (l.map Char.ofNat)

/-! ## Base64: model of arrayToBase64 and base64ToArray (crypto module)

The source functions are btoa / atob wrappers.  Base64 texts are modelled
as even naturals (the packed byte list, doubled); odd naturals model texts
that are not valid base64, on which atob throws. -/

/-- Embedding of arrayToBase64 (crypto module helpers). -/
def arrayToBase64 (l : List Nat) : Nat :=
  2 * encL l

/-- Embedding of base64ToArray (crypto module helpers); `none` models the
exception atob throws on an invalid base64 text. -/
def base64ToArray (n : Nat) : Option (List Nat) :=
  if n % 2 = 0 then decL (n / 2) else none

/-! ## Ideal Web Crypto primitives -/

/-- Model of window.crypto.getRandomValues: an explicit random byte tape
`g`, read at offset `off` for `n` bytes. -/
def randBytes (g : Nat → Nat) (off n : Nat) : List Nat :=
  (List.range n).map (fun i => g (off + i) % 256)

/-- Model of the SHA-256 digest: a fixed deterministic function returning a
32-byte digest.  Only determinism, totality and the output length of the
real digest are relied on. -/
def sha256Model (input : List Nat) : List Nat :=
  (List.range 32).map (fun i => (encL input + i) % 256)

/-- Model of PBKDF2 key derivation with a SHA-256 PRF: an ideal injective
function of the password bytes, the salt and the iteration count, producing
a 256-bit symmetric key (keys are abstract naturals). -/
def deriveKeyPBKDF2 (passwordBytes salt : List Nat) (iterations : Nat) : Nat :=
  Nat.pair (encL passwordBytes) (Nat.pair (encL salt) iterations)

/-- Authentication tag of the ideal AES-256-GCM cipher: an injective
function of key, nonce and plaintext. -/
def aesTag (key ivN : Nat) (pt : List Nat) : Nat :=
  Nat.pair key (Nat.pair ivN (encL pt))

/-- Model of AES-GCM encrypt: the payload followed by its authentication
tag.  The nonce is passed packed (`encL iv`). -/
def aesSeal (key ivN : Nat) (pt : List Nat) : List Nat :=
  pt ++ [aesTag key ivN pt]

/-- Model of AES-GCM decrypt: recomputes the tag over the body and fails
closed on any mismatch, like the AEAD OperationError of Web Crypto. -/
def aesOpen (key ivN : Nat) (ct : List Nat) : Option (List Nat) :=
  match ct.getLast? with
  | none => none
  | some t => if t = aesTag key ivN ct.dropLast then some ct.dropLast else none

/-- Model of RSA-OAEP encryption of a small payload under the public key of
the pair with seed `pubSeed`: an injective wrapping of the payload with the
key identity. -/
def rsaEncryptRaw (pubSeed : Nat) (m : List Nat) : List Nat :=
  [Nat.pair pubSeed (encL m)]

/-- Model of RSA-OAEP decryption with the private key of the pair with seed
`privSeed`: checks the key identity and the canonical form of the payload
(the OAEP padding check) and fails closed otherwise. -/
def rsaDecryptRaw (privSeed : Nat) (ct : List Nat) : Option (List Nat) :=
  match ct with
  | [c] =>
    match decL (Nat.unpair c).2 with
    | some m =>
      if (Nat.unpair c).1 = privSeed ∧ encL m = (Nat.unpair c).2 then some m else none
    | none => none
  | _ => none

/-- Single bit flip at bit `j` of byte `i` of a byte list. -/
def flipBit (l : List Nat) (i j : Nat) : List Nat :=
  l.set i ((l.getD i 0) ^^^ 2 ^ j)

/-! ## Embedding of the crypto module (client/src/utils, crypto helpers)

Each definition mirrors one exported function of the source module; names
are kept.  Functions that call getRandomValues or generateKey take the
random tape `g` as an explicit argument.  A returned `none` models a thrown
exception. -/

/-- Key pair record returned by generateKeyPair. -/
structure KeyPair where
  publicKey : Nat
  privateKey : Nat
deriving DecidableEq, Repr

/-- Embedding of generateKeyPair: the RSA-2048 pair generated from the
entropy `seed`; both halves are exported (spki / pkcs8) and base64 coded,
modelled as tagged byte lists sharing the seed. -/
def generateKeyPair (seed : Nat) : KeyPair :=
  { publicKey := arrayToBase64 [1, seed], privateKey := arrayToBase64 [2, seed] }

/-- Embedding of importPublicKey: decodes the base64 text and accepts only
a well-formed exported public key. -/
def importPublicKey (b64 : Nat) : Option Nat :=
  match base64ToArray b64 with
  | some [1, s] => some s
  | _ => none

/-- Embedding of importPrivateKey. -/
def importPrivateKey (b64 : Nat) : Option Nat :=
  match base64ToArray b64 with
  | some [2, s] => some s
  | _ => none

/-- Embedding of deriveKey (private-key protection): PBKDF2 over the
TextEncoder bytes of the passphrase with the callers salt and the constant
100000 iterations, SHA-256. -/
def deriveKey (passphrase : String) (salt : List Nat) : Nat :=
  deriveKeyPBKDF2 (strToBytes passphrase) salt 100000

/-- Envelope returned by encryptPrivateKey: the JS object with fields
ct, salt, iv, all base64 texts. -/
structure EncryptedPrivateKeyPkg where
  ct : Nat
  salt : Nat
  iv : Nat
deriving DecidableEq, Repr

/-- Embedding of encryptPrivateKey: fresh 16-byte salt and 12-byte iv from
the tape, PBKDF2-derived key, AES-GCM seal of the TextEncoder bytes of the
private key text. -/
def encryptPrivateKey (privateKeyB64 : String) (passphrase : String) (g : Nat → Nat) :
    EncryptedPrivateKeyPkg :=
  let salt := randBytes g 0 16
  let iv := randBytes g 16 12
  let key := deriveKey passphrase salt
  let enc := strToBytes privateKeyB64
  let ct := aesSeal key (encL iv) enc
  { ct := arrayToBase64 ct, salt := arrayToBase64 salt, iv := arrayToBase64 iv }

/-- Embedding of decryptPrivateKey: decodes the base64 fields, re-derives
the key from the supplied passphrase and the stored salt, AES-GCM opens the
ciphertext; `none` models the thrown OperationError. -/
def decryptPrivateKey (pkg : EncryptedPrivateKeyPkg) (passphrase : String) : Option String :=
  match base64ToArray pkg.salt, base64ToArray pkg.iv, base64ToArray pkg.ct with
  | some salt, some iv, some ct =>
    let key := deriveKey passphrase salt
    match aesOpen key (encL iv) ct with
    | some plain => some (bytesToStr plain)
    | none => none
  | _, _, _ => none

/-- Bundle returned by encryptMessage: the JS object with fields
ciphertext, encKey, iv, all base64 texts. -/
structure MessageBundle where
  ciphertext : Nat
  encKey : Nat
  iv : Nat
deriving DecidableEq, Repr

/-- Embedding of encryptMessage: imports the recipient public key,
generates a fresh one-time AES-256 session key (32 tape bytes) and a fresh
12-byte iv, AES-GCM seals the plaintext, RSA-OAEP wraps the raw session
key bytes under the recipient public key. -/
def encryptMessage (plaintext : String) (recipientPubKeyB64 : Nat) (g : Nat → Nat) :
    Option MessageBundle :=
  match importPublicKey recipientPubKeyB64 with
  | none => none
  | some pubSeed =>
    let aesRaw := randBytes g 0 32
    let iv := randBytes g 32 12
    let msgBytes := strToBytes plaintext
    let ciphertext := aesSeal (encL aesRaw) (encL iv) msgBytes
    let encKey := rsaEncryptRaw pubSeed aesRaw
    some
      { ciphertext := arrayToBase64 ciphertext
        encKey := arrayToBase64 encKey
        iv := arrayToBase64 iv }

/-- Embedding of decryptMessage: imports the private key, RSA-OAEP unwraps
the session key, imports it, AES-GCM opens the ciphertext, decodes the
plaintext bytes; `none` models a thrown error at any step. -/
def decryptMessage (pkg : MessageBundle) (privateKeyB64 : Nat) : Option String :=
  match importPrivateKey privateKeyB64 with
  | none => none
  | some privSeed =>
    match base64ToArray pkg.encKey with
    | none => none
    | some encAesKeyBytes =>
      match rsaDecryptRaw privSeed encAesKeyBytes with
      | none => none
      | some aesRaw =>
        match base64ToArray pkg.iv, base64ToArray pkg.ciphertext with
        | some iv, some ciphertext =>
          match aesOpen (encL aesRaw) (encL iv) ciphertext with
          | some plaintext => some (bytesToStr plaintext)
          | none => none
        | _, _ => none

/-- Hex digit character for a value below 16 (lowercase, as produced by
toString(16)). -/
def hexDigitChar (d : Nat) : Char :=
  if d < 10 then Char.ofNat (48 + d) else Char.ofNat (87 + d)

/-- Two lowercase hex digits of one byte, as produced by
b.toString(16).padStart(2, the zero digit) for b below 256. -/
def byteToHex (b : Nat) : List Char :=
  [hexDigitChar (b / 16 % 16), hexDigitChar (b % 16)]

/-- Hex rendering of a byte list (map + join of the source). -/
def hexChars : List Nat → List Char
  | [] => []
  | b :: t => byteToHex b ++ hexChars t

/-- Grouping of a character list into full blocks of 4, dropping a partial
trailing block, as the regex match of the source does (fuel recursion). -/
def chunkAux : Nat → List Char → List (List Char)
  | 0, _ => []
  | fuel + 1, l => if 4 ≤ l.length then l.take 4 :: chunkAux fuel (l.drop 4) else []

/-- Grouping into blocks of 4 characters. -/
def chunk4 (l : List Char) : List (List Char) :=
  chunkAux l.length l

/-- Embedding of getKeyFingerprint: SHA-256 digest of the decoded public
key bytes, rendered as lowercase hex pairs, uppercased, grouped in blocks
of 4 and joined with single spaces. -/
def getKeyFingerprint (pubKeyB64 : Nat) : Option String :=
  match base64ToArray pubKeyB64 with
  | none => none
  | some bytes =>
    let hash := sha256Model bytes
    let hex := hexChars hash
    let upper := hex.map Char.toUpper
    some (String.mk (List.intercalate [' '] (chunk4 upper)))

/-! ## Embedding of sendMessage (chat component)

The component encrypts the same text twice, once for the contact public key
and once for the current user public key, each call drawing its own fresh
session key and iv inside encryptMessage; the two calls have independent
random tapes. -/

/-- Embedding of the encryption step of sendMessage. -/
def sendMessage (text : String) (contactPublicKey currentUserPublicKey : Nat)
    (g1 g2 : Nat → Nat) : Option (MessageBundle × MessageBundle) :=
  match encryptMessage text contactPublicKey g1,
      encryptMessage text currentUserPublicKey g2 with
  | some encryptedForRecipient, some encryptedForSender =>
    some (encryptedForRecipient, encryptedForSender)
  | _, _ => none

/-! ## Embedding of the backup codec (client/src/utils, backup module) -/

/-- Model of the string constant CIPHERCHAT_BACKUP_V1. -/
def BACKUP_MAGIC : Nat := 1

/-- Model of the version string literal written by encryptBackup. -/
def BACKUP_VERSION : Nat := 10

/-- Embedding of deriveBackupKey: PBKDF2 over the TextEncoder bytes of the
backup password with the callers salt and the constant 150000 iterations,
SHA-256. -/
def deriveBackupKey (password : String) (salt : List Nat) : Nat :=
  deriveKeyPBKDF2 (strToBytes password) salt 150000

/-- Cleartext stats summary of the backup payload. -/
structure BackupStats where
  totalMessages : Nat
  totalContacts : Nat
deriving DecidableEq, Repr

/-- Owner summary of the backup payload. -/
structure BackupOwner where
  username : Nat
  publicKey : Nat
deriving DecidableEq, Repr

/-- Backup payload assembled by the server generate route: version,
createdAt, owner, contacts, messages (still in their per-message encrypted
form) and stats.  The contacts and messages collections are opaque blobs
here; the codec never looks inside them. -/
structure BackupData where
  version : Nat
  createdAt : Nat
  owner : BackupOwner
  contacts : Nat
  messages : Nat
  stats : BackupStats
deriving DecidableEq, Repr

/-- Model of TextEncoder.encode(JSON.stringify(backupData)): an injective
byte serialization of the payload. -/
def serializeBackupData (d : BackupData) : List Nat :=
  [d.version, d.createdAt, d.owner.username, d.owner.publicKey,
    d.contacts, d.messages, d.stats.totalMessages, d.stats.totalContacts]

/-- Model of JSON.parse over decrypted payload bytes; fails on bytes that
are not a serialized payload. -/
def deserializeBackupData (l : List Nat) : Option BackupData :=
  match l with
  | [v, c, u, pk, cs, ms, tm, tc] =>
    some ⟨v, c, ⟨u, pk⟩, cs, ms, ⟨tm, tc⟩⟩
  | _ => none

/-- Envelope document written by encryptBackup: the JS package object with
fields magic, version, createdAt, salt, iv, ciphertext, stats, owner. -/
structure BackupPkg where
  magic : Nat
  version : Nat
  createdAt : Nat
  salt : Nat
  iv : Nat
  ciphertext : Nat
  stats : BackupStats
  owner : Nat
deriving DecidableEq, Repr

/-- Model of JSON.stringify over the envelope: an injective document
encoding (even naturals; odd naturals model unparseable documents). -/
def serializeBackupFile (pkg : BackupPkg) : Nat :=
  2 * encL [pkg.magic, pkg.version, pkg.createdAt, pkg.salt, pkg.iv,
    pkg.ciphertext, pkg.stats.totalMessages, pkg.stats.totalContacts, pkg.owner]

/-- Model of JSON.parse over a backup file document; `none` models the
exception on input that is not a serialized envelope. -/
def parseBackupFile (n : Nat) : Option BackupPkg :=
  if n % 2 = 0 then
    match decL (n / 2) with
    | some [m, v, c, s, i, ct, tm, tc, o] =>
      some ⟨m, v, c, s, i, ct, ⟨tm, tc⟩, o⟩
    | _ => none
  else none

/-- Embedding of encryptBackup: fresh 16-byte salt and 12-byte iv, PBKDF2
key from the backup password (150000 iterations), AES-GCM seal of the
serialized payload, packaged with magic, version, timestamp and the
cleartext stats and owner summary. -/
def encryptBackup (backupData : BackupData) (backupPassword : String)
    (g : Nat → Nat) (now : Nat) : Nat :=
  let salt := randBytes g 0 16
  let iv := randBytes g 16 12
  let key := deriveBackupKey backupPassword salt
  let encoded := serializeBackupData backupData
  let ciphertext := aesSeal key (encL iv) encoded
  serializeBackupFile
    { magic := BACKUP_MAGIC
      version := BACKUP_VERSION
      createdAt := now
      salt := arrayToBase64 salt
      iv := arrayToBase64 iv
      ciphertext := arrayToBase64 ciphertext
      stats := backupData.stats
      owner := backupData.owner.username }

/-- Errors thrown by decryptBackup: the two invalid-file messages and the
wrong-password message of the source. -/
inductive BackupError where
  | invalidJson
  | invalidMagic
  | wrongPassword
deriving DecidableEq, Repr

/-- Embedding of decryptBackup: JSON.parse of the document (failure throws
the could-not-parse error), the magic check (failure throws the
not-a-backup error), then inside the try block the base64 decodes, the key
derivation from the supplied password and the stored salt, the AES-GCM
open and the inner JSON.parse; any failure inside the try block is caught
and rethrown as the single wrong-backup-password error.  The version field
is never read. -/
def decryptBackup (backupFileContent : Nat) (backupPassword : String) :
    Except BackupError BackupData :=
  match parseBackupFile backupFileContent with
  | none => .error .invalidJson
  | some pkg =>
    if pkg.magic ≠ BACKUP_MAGIC then .error .invalidMagic
    else
      match base64ToArray pkg.salt, base64ToArray pkg.iv, base64ToArray pkg.ciphertext with
      | some salt, some iv, some ciphertext =>
        let key := deriveBackupKey backupPassword salt
        match aesOpen key (encL iv) ciphertext with
        | some decrypted =>
          match deserializeBackupData decrypted with
          | some d => .ok d
          | none => .error .wrongPassword
        | none => .error .wrongPassword
      | _, _, _ => .error .wrongPassword

/-! ## Named bundle and concrete documents used in claim statements -/

/-- The bundle encryptMessage produces for the public key of the pair with
seed `seed`, plaintext `P` and tape `g`; used to state per-field tamper
properties and the dual-encryption property. -/
def msgBundle (seed : Nat) (P : String) (g : Nat → Nat) : MessageBundle :=
  { ciphertext :=
      arrayToBase64 (aesSeal (encL (randBytes g 0 32)) (encL (randBytes g 32 12)) (strToBytes P))
    encKey := arrayToBase64 (rsaEncryptRaw seed (randBytes g 0 32))
    iv := arrayToBase64 (randBytes g 32 12) }

/-- All-zero random tape, for concrete evaluations. -/
def zeroTape : Nat → Nat := fun _ => 0

/-- A small concrete backup payload. -/
def cexPayload : BackupData :=
  { version := 0, createdAt := 0, owner := { username := 0, publicKey := 0 },
    contacts := 0, messages := 0, stats := { totalMessages := 0, totalContacts := 0 } }

/-- A backup envelope that is well formed and honestly encrypted under the
empty password, except that its version field holds 999 instead of the
version constant. -/
def badVersionPkg : BackupPkg :=
  { magic := BACKUP_MAGIC
    version := 999
    createdAt := 0
    salt := arrayToBase64 (randBytes zeroTape 0 16)
    iv := arrayToBase64 (randBytes zeroTape 16 12)
    ciphertext :=
      arrayToBase64 (aesSeal (deriveBackupKey "" (randBytes zeroTape 0 16))
        (encL (randBytes zeroTape 16 12)) (serializeBackupData cexPayload))
    stats := cexPayload.stats
    owner := 0 }

/-- The serialized form of `badVersionPkg`. -/
def badVersionFile : Nat := serializeBackupFile badVersionPkg

/-- A parseable backup document whose magic field does not match. -/
def wrongMagicPkg : BackupPkg :=
  { magic := 0, version := BACKUP_VERSION, createdAt := 0, salt := 0, iv := 0,
    ciphertext := 0, stats := { totalMessages := 0, totalContacts := 0 }, owner := 0 }

/-- The serialized form of `wrongMagicPkg`. -/
def wrongMagicFile : Nat := serializeBackupFile wrongMagicPkg

/-- A parseable backup document with matching magic whose salt field is not
valid base64 (odd code models invalid base64 text). -/
def badSaltPkg : BackupPkg :=
  { magic := BACKUP_MAGIC, version := BACKUP_VERSION, createdAt := 0, salt := 1, iv := 1,
    ciphertext := 1, stats := { totalMessages := 0, totalContacts := 0 }, owner := 0 }

/-- The serialized form of `badSaltPkg`. -/
def badSaltFile : Nat := serializeBackupFile badSaltPkg

theorem bitsToNat_foldl_le (bs : List Bool) :
    ∀ acc : Nat, acc ≤ bs.foldl (fun acc b => 2 * acc + cond b 1 0) acc := by
  induction bs with
  | nil => intro acc; simp
  | cons b t ih =>
    intro acc
    have h1 : acc ≤ 2 * acc + cond b 1 0 := by cases b <;> simp <;> omega
    exact le_trans h1 (ih (2 * acc + cond b 1 0))

theorem bitsToNat_pos (bs : List Bool) : 1 ≤ bitsToNat bs :=
  bitsToNat_foldl_le bs 1

theorem bitsToNat_concat (bs : List Bool) (b : Bool) :
    bitsToNat (bs ++ [b]) = 2 * bitsToNat bs + cond b 1 0 := by
  simp [bitsToNat]

theorem natBitsAux_step (f n : Nat) (hn : ¬ n ≤ 1) :
    natBitsAux (f + 1) n = natBitsAux f (n / 2) ++ [decide (n % 2 = 1)] := by
  simp only [natBitsAux, hn, if_false]

theorem natBitsAux_congr :
    ∀ f1 f2 n, n ≤ f1 → n ≤ f2 → natBitsAux f1 n = natBitsAux f2 n := by
  intro f1
  induction f1 with
  | zero =>
    intro f2 n h1 _
    interval_cases n
    cases f2 <;> simp [natBitsAux]
  | succ f ih =>
    intro f2 n h1 h2
    cases f2 with
    | zero =>
      interval_cases n
      simp [natBitsAux]
    | succ g =>
      by_cases hn : n ≤ 1
      · simp [natBitsAux, hn]
      · rw [natBitsAux_step f n hn, natBitsAux_step g n hn,
          ih g (n / 2) (by omega) (by omega)]

theorem natToBits_le_one (n : Nat) (h : n ≤ 1) : natToBits n = [] := by
  unfold natToBits
  interval_cases n <;> simp [natBitsAux]

theorem natToBits_ge_two (n : Nat) (h : 2 ≤ n) :
    natToBits n = natToBits (n / 2) ++ [decide (n % 2 = 1)] := by
  unfold natToBits
  cases n with
  | zero => omega
  | succ m =>
    have hn : ¬ (m + 1 ≤ 1) := by omega
    rw [natBitsAux_step m (m + 1) hn,
      natBitsAux_congr m ((m + 1) / 2) ((m + 1) / 2) (by omega) (by omega)]

theorem natToBits_bitsToNat (bs : List Bool) : natToBits (bitsToNat bs) = bs := by
  induction bs using List.reverseRecOn with
  | nil => exact natToBits_le_one _ (by simp [bitsToNat])
  | append_singleton t b ih =>
    have hpos := bitsToNat_pos t
    rw [bitsToNat_concat]
    have h2 : 2 ≤ 2 * bitsToNat t + cond b 1 0 := by cases b <;> simp <;> omega
    rw [natToBits_ge_two _ h2]
    have hdiv : (2 * bitsToNat t + cond b 1 0) / 2 = bitsToNat t := by
      cases b <;> simp <;> omega
    have hmod : decide ((2 * bitsToNat t + cond b 1 0) % 2 = 1) = b := by
      cases b <;> simp <;> omega
    rw [hdiv, hmod, ih]

theorem encBitsAux_step (f n : Nat) (hn : n ≠ 0) :
    encBitsAux (f + 1) n = true :: decide (n % 2 = 1) :: encBitsAux f (n / 2) := by
  simp only [encBitsAux, hn, if_false]

theorem encBitsAux_congr :
    ∀ f1 f2 n, n < f1 → n < f2 → encBitsAux f1 n = encBitsAux f2 n := by
  intro f1
  induction f1 with
  | zero => intro f2 n h1 _; omega
  | succ f ih =>
    intro f2 n h1 h2
    cases f2 with
    | zero => omega
    | succ g =>
      by_cases hn : n = 0
      · simp [encBitsAux, hn]
      · rw [encBitsAux_step f n hn, encBitsAux_step g n hn,
          ih g (n / 2) (by omega) (by omega)]

theorem encBits_zero : encBits 0 = [false] := rfl

theorem encBits_pos (n : Nat) (h : n ≠ 0) :
    encBits n = true :: decide (n % 2 = 1) :: encBits (n / 2) := by
  unfold encBits
  cases n with
  | zero => omega
  | succ m =>
    rw [encBitsAux_step (m + 1) (m + 1) h,
      encBitsAux_congr (m + 1) ((m + 1) / 2 + 1) ((m + 1) / 2) (by omega) (by omega)]

theorem encBits_ne_nil (n : Nat) : encBits n ≠ [] := by
  by_cases h : n = 0
  · subst h; simp [encBits_zero]
  · rw [encBits_pos n h]; simp

theorem decodeOne_encBits (n : Nat) :
    ∀ rest, decodeOne (encBits n ++ rest) = some (n, rest) := by
  induction n using Nat.strong_induction_on with
  | _ n ih =>
    intro rest
    by_cases h : n = 0
    · subst h; simp [encBits_zero, decodeOne]
    · rw [encBits_pos n h]
      have hrec := ih (n / 2) (by omega) rest
      have hval : 2 * (n / 2) + cond (decide (n % 2 = 1)) 1 0 = n := by
        rcases Nat.mod_two_eq_zero_or_one n with hm | hm <;> simp [hm] <;> omega
      simp only [List.cons_append, decodeOne, List.append_eq, hrec, hval]

theorem byteStream_length (l : List Nat) : l.length ≤ (byteStream l).length := by
  induction l with
  | nil => simp [byteStream]
  | cons a t ih =>
    have h1 : 1 ≤ (encBits a).length := by
      cases hb : encBits a with
      | nil => exact absurd hb (encBits_ne_nil a)
      | cons x xs => simp
    simp only [byteStream, List.length_append, List.length_cons]
    omega

theorem decListAux_byteStream (l : List Nat) :
    ∀ fuel, l.length ≤ fuel → decListAux fuel (byteStream l) = some l := by
  induction l with
  | nil => intro fuel _; cases fuel <;> simp [byteStream, decListAux]
  | cons a t ih =>
    intro fuel hf
    cases fuel with
    | zero => simp at hf
    | succ f =>
      have hne : byteStream (a :: t) ≠ [] := by
        simp only [byteStream]
        intro hcon
        exact encBits_ne_nil a (List.append_eq_nil.mp hcon).1
      cases hbs : byteStream (a :: t) with
      | nil => exact absurd hbs hne
      | cons b bs =>
        have hdec : decodeOne (b :: bs) = some (a, byteStream t) := by
          rw [← hbs]
          simp only [byteStream]
          exact decodeOne_encBits a (byteStream t)
        simp only [decListAux, hdec]
        rw [ih f (by simpa using hf)]
        rfl

theorem decL_encL (l : List Nat) : decL (encL l) = some l := by
  unfold decL encL
  rw [natToBits_bitsToNat]
  exact decListAux_byteStream l _ (byteStream_length l)

theorem encL_injective : Function.Injective encL := by
  intro a b h
  have := decL_encL a
  rw [h, decL_encL b] at this
  exact (Option.some.inj this).symm

/-! ## Primitive lemmas -/

theorem bytesToStr_strToBytes (s : String) : bytesToStr (strToBytes s) = s := by
  unfold bytesToStr strToBytes
  rw [List.map_map]
  have h : s.data.map (Char.ofNat ∘ Char.toNat) = s.data := by
    simp [Function.comp_def, Char.ofNat_toNat]
  rw [h]

theorem strToBytes_injective : Function.Injective strToBytes := by
  intro a b h
  have := congrArg bytesToStr h
  rwa [bytesToStr_strToBytes, bytesToStr_strToBytes] at this

theorem base64ToArray_arrayToBase64 (l : List Nat) :
    base64ToArray (arrayToBase64 l) = some l := by
  unfold base64ToArray arrayToBase64
  have h2 : 2 * encL l % 2 = 0 := by omega
  have h3 : 2 * encL l / 2 = encL l := by omega
  rw [if_pos h2, h3, decL_encL]

theorem arrayToBase64_injective : Function.Injective arrayToBase64 := by
  intro a b h
  have := congrArg base64ToArray h
  rw [base64ToArray_arrayToBase64, base64ToArray_arrayToBase64] at this
  exact Option.some.inj this

theorem aesTag_inj {k1 k2 i1 i2 : Nat} {p1 p2 : List Nat}
    (h : aesTag k1 i1 p1 = aesTag k2 i2 p2) : k1 = k2 ∧ i1 = i2 ∧ p1 = p2 := by
  unfold aesTag at h
  have h1 := Nat.pair_eq_pair.mp h
  have h2 := Nat.pair_eq_pair.mp h1.2
  exact ⟨h1.1, h2.1, encL_injective h2.2⟩

theorem aesOpen_aesSeal (key ivN : Nat) (pt : List Nat) :
    aesOpen key ivN (aesSeal key ivN pt) = some pt := by
  unfold aesOpen aesSeal
  rw [List.getLast?_concat]
  simp

theorem aesOpen_wrong_params (k1 k2 i1 i2 : Nat) (pt : List Nat)
    (h : k2 ≠ k1 ∨ i2 ≠ i1) :
    aesOpen k2 i2 (aesSeal k1 i1 pt) = none := by
  unfold aesOpen aesSeal
  rw [List.getLast?_concat]
  have hne : aesTag k1 i1 pt ≠ aesTag k2 i2 ((pt ++ [aesTag k1 i1 pt]).dropLast) := by
    intro hcon
    have := aesTag_inj hcon
    rcases h with h | h
    · exact h this.1.symm
    · exact h this.2.1.symm
  simp only [hne, if_false]

theorem flip_val_ne (x j : Nat) : x ^^^ 2 ^ j ≠ x := by
  intro h
  have h3 := congrArg (fun y => y.testBit j) h
  simp [Nat.testBit_xor, Nat.testBit_two_pow_self] at h3

theorem getD_set_self :
    ∀ (l : List Nat) (i a : Nat), i < l.length → (l.set i a).getD i 0 = a := by
  intro l
  induction l with
  | nil => intro i a h; simp at h
  | cons x t ih =>
    intro i a h
    cases i with
    | zero => simp
    | succ n => simpa using ih n a (by simpa using h)

theorem set_flip_ne (l : List Nat) (i j : Nat) (h : i < l.length) :
    l.set i ((l.getD i 0) ^^^ 2 ^ j) ≠ l := by
  intro heq
  have h1 := congrArg (fun m => m.getD i 0) heq
  simp only at h1
  rw [getD_set_self l i _ h] at h1
  exact flip_val_ne (l.getD i 0) j h1

theorem flipBit_getD_append (pt : List Nat) (t : Nat) (i : Nat) (h : i < pt.length) :
    (pt ++ [t]).getD i 0 = pt.getD i 0 := by
  simp [List.getD, List.getElem?_append_left h]

theorem aesOpen_flip (key ivN : Nat) (pt : List Nat) (i j : Nat)
    (h : i < (aesSeal key ivN pt).length) :
    aesOpen key ivN (flipBit (aesSeal key ivN pt) i j) = none := by
  have hlen : (aesSeal key ivN pt).length = pt.length + 1 := by
    simp [aesSeal]
  unfold flipBit
  rcases Nat.lt_or_ge i pt.length with hi | hi
  · -- flip lands in the ciphertext body
    have hgd : (aesSeal key ivN pt).getD i 0 = pt.getD i 0 :=
      flipBit_getD_append pt (aesTag key ivN pt) i hi
    have hset : (aesSeal key ivN pt).set i (pt.getD i 0 ^^^ 2 ^ j)
        = pt.set i (pt.getD i 0 ^^^ 2 ^ j) ++ [aesTag key ivN pt] := by
      unfold aesSeal
      rw [List.set_append, if_pos hi]
    rw [hgd, hset]
    unfold aesOpen
    rw [List.getLast?_concat]
    have hne : aesTag key ivN pt
        ≠ aesTag key ivN ((pt.set i (pt.getD i 0 ^^^ 2 ^ j) ++ [aesTag key ivN pt]).dropLast) := by
      rw [List.dropLast_concat]
      intro hcon
      exact set_flip_ne pt i j hi ((aesTag_inj hcon).2.2.symm)
    simp only [hne, if_false]
  · -- flip lands in the authentication tag
    have hieq : i = pt.length := by omega
    subst hieq
    have hgd : (aesSeal key ivN pt).getD pt.length 0 = aesTag key ivN pt := by
      simp [aesSeal, List.getD, List.getElem?_append_right (le_refl pt.length)]
    have hset : (aesSeal key ivN pt).set pt.length (aesTag key ivN pt ^^^ 2 ^ j)
        = pt ++ [aesTag key ivN pt ^^^ 2 ^ j] := by
      unfold aesSeal
      rw [List.set_append, if_neg (by omega)]
      simp
    rw [hgd, hset]
    unfold aesOpen
    rw [List.getLast?_concat]
    have hne : aesTag key ivN pt ^^^ 2 ^ j
        ≠ aesTag key ivN ((pt ++ [aesTag key ivN pt ^^^ 2 ^ j]).dropLast) := by
      rw [List.dropLast_concat]
      exact flip_val_ne (aesTag key ivN pt) j
    simp only [hne, if_false]

theorem rsaDecryptRaw_rsaEncryptRaw (s : Nat) (m : List Nat) :
    rsaDecryptRaw s (rsaEncryptRaw s m) = some m := by
  unfold rsaDecryptRaw rsaEncryptRaw
  simp [Nat.unpair_pair, decL_encL]

theorem rsaDecryptRaw_canonical (s : Nat) (ct : List Nat) (m : List Nat)
    (h : rsaDecryptRaw s ct = some m) : ct = rsaEncryptRaw s m := by
  unfold rsaDecryptRaw at h
  split at h
  · next c =>
    split at h
    · next m2 hd =>
      split at h
      · next hc =>
        have hm : m2 = m := Option.some.inj h
        subst hm
        unfold rsaEncryptRaw
        have hcval : c = Nat.pair (Nat.unpair c).1 (Nat.unpair c).2 :=
          (Nat.pair_unpair c).symm
        rw [hcval, hc.1, ← hc.2]
      · exact absurd h (by simp)
    · exact absurd h (by simp)
  · exact absurd h (by simp)

theorem deriveKeyPBKDF2_inj {p1 p2 s1 s2 : List Nat} {i1 i2 : Nat}
    (h : deriveKeyPBKDF2 p1 s1 i1 = deriveKeyPBKDF2 p2 s2 i2) :
    p1 = p2 ∧ s1 = s2 ∧ i1 = i2 := by
  unfold deriveKeyPBKDF2 at h
  have h1 := Nat.pair_eq_pair.mp h
  have h2 := Nat.pair_eq_pair.mp h1.2
  exact ⟨encL_injective h1.1, encL_injective h2.1, h2.2⟩

theorem randBytes_length (g : Nat → Nat) (off n : Nat) :
    (randBytes g off n).length = n := by
  simp [randBytes]

theorem parseBackupFile_serializeBackupFile (pkg : BackupPkg) :
    parseBackupFile (serializeBackupFile pkg) = some pkg := by
  unfold parseBackupFile serializeBackupFile
  have h2 : 2 * encL [pkg.magic, pkg.version, pkg.createdAt, pkg.salt, pkg.iv,
      pkg.ciphertext, pkg.stats.totalMessages, pkg.stats.totalContacts, pkg.owner] % 2 = 0 := by
    omega
  have h3 : 2 * encL [pkg.magic, pkg.version, pkg.createdAt, pkg.salt, pkg.iv,
      pkg.ciphertext, pkg.stats.totalMessages, pkg.stats.totalContacts, pkg.owner] / 2
      = encL [pkg.magic, pkg.version, pkg.createdAt, pkg.salt, pkg.iv,
      pkg.ciphertext, pkg.stats.totalMessages, pkg.stats.totalContacts, pkg.owner] := by
    omega
  rw [if_pos h2, h3, decL_encL]

theorem deserializeBackupData_serializeBackupData (d : BackupData) :
    deserializeBackupData (serializeBackupData d) = some d := by
  unfold deserializeBackupData serializeBackupData
  rfl

/-! ## Embedding-level lemmas -/

theorem importPublicKey_generateKeyPair (seed : Nat) :
    importPublicKey (generateKeyPair seed).publicKey = some seed := by
  unfold importPublicKey generateKeyPair
  rw [base64ToArray_arrayToBase64]

theorem importPrivateKey_generateKeyPair (seed : Nat) :
    importPrivateKey (generateKeyPair seed).privateKey = some seed := by
  unfold importPrivateKey generateKeyPair
  rw [base64ToArray_arrayToBase64]

theorem encryptMessage_generateKeyPair (seed : Nat) (P : String) (g : Nat → Nat) :
    encryptMessage P (generateKeyPair seed).publicKey g = some (msgBundle seed P g) := by
  unfold encryptMessage msgBundle
  rw [importPublicKey_generateKeyPair]

theorem decryptMessage_honest (seed : Nat) (aesRaw iv : List Nat) (P : String) :
    decryptMessage
      { ciphertext := arrayToBase64 (aesSeal (encL aesRaw) (encL iv) (strToBytes P))
        encKey := arrayToBase64 (rsaEncryptRaw seed aesRaw)
        iv := arrayToBase64 iv }
      (generateKeyPair seed).privateKey = some P := by
  unfold decryptMessage
  rw [importPrivateKey_generateKeyPair]
  simp only [base64ToArray_arrayToBase64, rsaDecryptRaw_rsaEncryptRaw,
    aesOpen_aesSeal, bytesToStr_strToBytes]

theorem deriveKey_ne_of_pass_ne (pass1 pass2 : String) (salt : List Nat)
    (h : pass1 ≠ pass2) : deriveKey pass1 salt ≠ deriveKey pass2 salt := by
  intro hcon
  unfold deriveKey at hcon
  exact h (strToBytes_injective (deriveKeyPBKDF2_inj hcon).1)

theorem deriveBackupKey_ne_of_pass_ne (pw1 pw2 : String) (salt : List Nat)
    (h : pw1 ≠ pw2) : deriveBackupKey pw1 salt ≠ deriveBackupKey pw2 salt := by
  intro hcon
  unfold deriveBackupKey at hcon
  exact h (strToBytes_injective (deriveKeyPBKDF2_inj hcon).1)

/-! ## Claims -/

theorem decryptPrivateKey_wrong_pass (key pass pass2 : String) (g : Nat → Nat)
    (hne : pass2 ≠ pass) :
    decryptPrivateKey (encryptPrivateKey key pass g) pass2 = none := by
  unfold decryptPrivateKey encryptPrivateKey
  simp only [base64ToArray_arrayToBase64]
  rw [aesOpen_wrong_params (deriveKey pass (randBytes g 0 16))
    (deriveKey pass2 (randBytes g 0 16)) (encL (randBytes g 16 12))
    (encL (randBytes g 16 12)) (strToBytes key)
    (Or.inl (deriveKey_ne_of_pass_ne pass2 pass (randBytes g 0 16) hne))]

theorem decryptBackup_parse_fail (content : Nat) (pw : String)
    (hp : parseBackupFile content = none) :
    decryptBackup content pw = Except.error BackupError.invalidJson := by
  unfold decryptBackup
  rw [hp]

theorem decryptBackup_magic_fail (content : Nat) (pw : String) (pkg : BackupPkg)
    (hp : parseBackupFile content = some pkg) (hm : pkg.magic ≠ BACKUP_MAGIC) :
    decryptBackup content pw = Except.error BackupError.invalidMagic := by
  unfold decryptBackup
  rw [hp]
  simp [hm]

/-- C1: for every plaintext string P, every honestly generated RSA-2048 key
pair and every randomness tape, decrypting with the private key the bundle
produced by encryptMessage for the public key returns P. -/
theorem C1_message_roundtrip (seed : Nat) (P : String) (g : Nat → Nat) :
    (encryptMessage P (generateKeyPair seed).publicKey g).bind
      (fun b => decryptMessage b (generateKeyPair seed).privateKey) = some P := by
  rw [encryptMessage_generateKeyPair]
  exact decryptMessage_honest seed (randBytes g 0 32) (randBytes g 32 12) P

/-- C2: unwrapping the envelope produced by encryptPrivateKey with the same
passphrase returns the original private key text, and unwrapping it with
any different passphrase fails and never returns a value. -/
theorem C2_private_key_wrap_roundtrip (key pass pass2 : String) (g : Nat → Nat) :
    decryptPrivateKey (encryptPrivateKey key pass g) pass = some key ∧
    (pass2 ≠ pass → decryptPrivateKey (encryptPrivateKey key pass g) pass2 = none) := by
  constructor
  · unfold decryptPrivateKey encryptPrivateKey
    simp only [base64ToArray_arrayToBase64, aesOpen_aesSeal, bytesToStr_strToBytes]
  · exact decryptPrivateKey_wrong_pass key pass pass2 g

/-- C2 witness at concrete inputs. -/
theorem C2_private_key_wrap_roundtrip_witness :
    decryptPrivateKey (encryptPrivateKey "sk" "horse" (fun _ => 0)) "horse" = some "sk" ∧
    decryptPrivateKey (encryptPrivateKey "sk" "horse" (fun _ => 0)) "Horse" = none :=
  ⟨(C2_private_key_wrap_roundtrip "sk" "horse" "Horse" (fun _ => 0)).1,
    (C2_private_key_wrap_roundtrip "sk" "horse" "Horse" (fun _ => 0)).2 (by decide)⟩

/-- C3: decoding the envelope produced by encryptBackup with the same backup
password returns the original payload, and decoding it with any different
password fails with the wrong-password error. -/
theorem C3_backup_roundtrip (d : BackupData) (pw pw2 : String) (g : Nat → Nat) (now : Nat) :
    decryptBackup (encryptBackup d pw g now) pw = Except.ok d ∧
    (pw2 ≠ pw →
      decryptBackup (encryptBackup d pw g now) pw2 = Except.error BackupError.wrongPassword) := by
  constructor
  · unfold decryptBackup encryptBackup
    rw [parseBackupFile_serializeBackupFile]
    simp only [base64ToArray_arrayToBase64, aesOpen_aesSeal,
      deserializeBackupData_serializeBackupData]
    simp
  · intro hne
    unfold decryptBackup encryptBackup
    rw [parseBackupFile_serializeBackupFile]
    simp only [base64ToArray_arrayToBase64]
    rw [aesOpen_wrong_params (deriveBackupKey pw (randBytes g 0 16))
      (deriveBackupKey pw2 (randBytes g 0 16)) (encL (randBytes g 16 12))
      (encL (randBytes g 16 12)) (serializeBackupData d)
      (Or.inl (deriveBackupKey_ne_of_pass_ne pw2 pw (randBytes g 0 16) hne))]
    simp

/-- C3 witness at concrete inputs. -/
theorem C3_backup_roundtrip_witness :
    decryptBackup
        (encryptBackup ⟨0, 0, ⟨0, 0⟩, 0, 0, ⟨3, 1⟩⟩ "backup123" (fun _ => 0) 0) "backup123"
      = Except.ok ⟨0, 0, ⟨0, 0⟩, 0, 0, ⟨3, 1⟩⟩ ∧
    decryptBackup
        (encryptBackup ⟨0, 0, ⟨0, 0⟩, 0, 0, ⟨3, 1⟩⟩ "backup123" (fun _ => 0) 0) "backup124"
      = Except.error BackupError.wrongPassword :=
  ⟨(C3_backup_roundtrip ⟨0, 0, ⟨0, 0⟩, 0, 0, ⟨3, 1⟩⟩ "backup123" "backup124" (fun _ => 0) 0).1,
    (C3_backup_roundtrip ⟨0, 0, ⟨0, 0⟩, 0, 0, ⟨3, 1⟩⟩ "backup123" "backup124" (fun _ => 0) 0).2
      (by decide)⟩

theorem decryptBackup_parsed (pkg : BackupPkg) (content : Nat) (pw : String)
    (hp : parseBackupFile content = some pkg) (hm : pkg.magic = BACKUP_MAGIC) :
    decryptBackup content pw =
      match base64ToArray pkg.salt, base64ToArray pkg.iv, base64ToArray pkg.ciphertext with
      | some salt, some iv, some ciphertext =>
        match aesOpen (deriveBackupKey pw salt) (encL iv) ciphertext with
        | some decrypted =>
          match deserializeBackupData decrypted with
          | some d => Except.ok d
          | none => Except.error BackupError.wrongPassword
        | none => Except.error BackupError.wrongPassword
      | _, _, _ => Except.error BackupError.wrongPassword := by
  unfold decryptBackup
  rw [hp]
  simp [hm]

/-- C4 counterexample: a parseable backup document whose magic matches but
whose version field does not match the version constant is decrypted
successfully with the right password — key derivation and decryption run
and the payload is returned — instead of failing with an invalid-format
error before any cryptographic operation.  The version field is never
validated by decryptBackup. -/
theorem C4_version_counterexample :
    parseBackupFile badVersionFile = some badVersionPkg ∧
    badVersionPkg.version ≠ BACKUP_VERSION ∧
    badVersionPkg.magic = BACKUP_MAGIC ∧
    decryptBackup badVersionFile "" = Except.ok cexPayload := by
  refine ⟨parseBackupFile_serializeBackupFile badVersionPkg, by decide, rfl, ?_⟩
  rw [decryptBackup_parsed badVersionPkg badVersionFile ""
    (parseBackupFile_serializeBackupFile badVersionPkg) rfl]
  have hsalt : badVersionPkg.salt = arrayToBase64 (randBytes zeroTape 0 16) := rfl
  have hiv : badVersionPkg.iv = arrayToBase64 (randBytes zeroTape 16 12) := rfl
  have hci : badVersionPkg.ciphertext
      = arrayToBase64 (aesSeal (deriveBackupKey "" (randBytes zeroTape 0 16))
        (encL (randBytes zeroTape 16 12)) (serializeBackupData cexPayload)) := rfl
  rw [hsalt, hiv, hci]
  simp only [base64ToArray_arrayToBase64, aesOpen_aesSeal,
    deserializeBackupData_serializeBackupData]

/-- C4 (amended): decryptBackup validates the magic string before any
cryptographic operation — an unparseable document fails with the
could-not-parse error and a parseable document with a non-matching magic
fails with the not-a-backup error, in both cases for every password, with a
result independent of the password (so no key derivation can influence it).
The version field, however, is not validated at all. -/
theorem C4_magic_checked_before_crypto (content : Nat) (pw pw2 : String) :
    (parseBackupFile content = none →
      decryptBackup content pw = Except.error BackupError.invalidJson) ∧
    (∀ pkg, parseBackupFile content = some pkg → pkg.magic ≠ BACKUP_MAGIC →
      decryptBackup content pw = Except.error BackupError.invalidMagic) ∧
    (∀ pkg, parseBackupFile content = some pkg → pkg.magic ≠ BACKUP_MAGIC →
      decryptBackup content pw = decryptBackup content pw2) := by
  refine ⟨?_, ?_, ?_⟩
  · exact decryptBackup_parse_fail content pw
  · intro pkg hp hm
    exact decryptBackup_magic_fail content pw pkg hp hm
  · intro pkg hp hm
    rw [decryptBackup_magic_fail content pw pkg hp hm,
      decryptBackup_magic_fail content pw2 pkg hp hm]

/-- C4 witness: the amended theorem applied at an unparseable document and
at a parseable document with a wrong magic. -/
theorem C4_magic_checked_before_crypto_witness :
    decryptBackup 1 "a" = Except.error BackupError.invalidJson ∧
    decryptBackup wrongMagicFile "a" = Except.error BackupError.invalidMagic ∧
    decryptBackup wrongMagicFile "a" = decryptBackup wrongMagicFile "b" :=
  ⟨(C4_magic_checked_before_crypto 1 "a" "b").1 (by decide),
    (C4_magic_checked_before_crypto wrongMagicFile "a" "b").2.1 wrongMagicPkg
      (parseBackupFile_serializeBackupFile wrongMagicPkg) (by decide),
    (C4_magic_checked_before_crypto wrongMagicFile "a" "b").2.2 wrongMagicPkg
      (parseBackupFile_serializeBackupFile wrongMagicPkg) (by decide)⟩

/-- C5: sendMessage calls encryptMessage twice on the same plaintext, once
for the contact public key and once for the current user public key, each
call drawing its own fresh one-time AES-256 session key inside the call;
for independent randomness (distinct drawn session-key bytes) the two
bundles wrap distinct symmetric keys: each wrapped key unwraps under the
matching private key to that call of session key, the two session keys
differ, and the wrapped-key fields of the two bundles differ. -/
theorem C5_independent_session_keys (text : String) (s1 s2 : Nat) (g1 g2 : Nat → Nat)
    (hind : randBytes g1 0 32 ≠ randBytes g2 0 32) :
    sendMessage text (generateKeyPair s1).publicKey (generateKeyPair s2).publicKey g1 g2
        = some (msgBundle s1 text g1, msgBundle s2 text g2) ∧
    base64ToArray (msgBundle s1 text g1).encKey = some (rsaEncryptRaw s1 (randBytes g1 0 32)) ∧
    base64ToArray (msgBundle s2 text g2).encKey = some (rsaEncryptRaw s2 (randBytes g2 0 32)) ∧
    rsaDecryptRaw s1 (rsaEncryptRaw s1 (randBytes g1 0 32)) = some (randBytes g1 0 32) ∧
    rsaDecryptRaw s2 (rsaEncryptRaw s2 (randBytes g2 0 32)) = some (randBytes g2 0 32) ∧
    (msgBundle s1 text g1).encKey ≠ (msgBundle s2 text g2).encKey ∧
    randBytes g1 0 32 ≠ randBytes g2 0 32 := by
  refine ⟨?_, ?_, ?_, rsaDecryptRaw_rsaEncryptRaw s1 (randBytes g1 0 32),
    rsaDecryptRaw_rsaEncryptRaw s2 (randBytes g2 0 32), ?_, hind⟩
  · unfold sendMessage
    rw [encryptMessage_generateKeyPair, encryptMessage_generateKeyPair]
  · exact base64ToArray_arrayToBase64 _
  · exact base64ToArray_arrayToBase64 _
  · show arrayToBase64 (rsaEncryptRaw s1 (randBytes g1 0 32))
      ≠ arrayToBase64 (rsaEncryptRaw s2 (randBytes g2 0 32))
    intro hcon
    have h1 := arrayToBase64_injective hcon
    unfold rsaEncryptRaw at h1
    have h2 : Nat.pair s1 (encL (randBytes g1 0 32))
        = Nat.pair s2 (encL (randBytes g2 0 32)) := by
      simpa using h1
    exact hind (encL_injective (Nat.pair_eq_pair.mp h2).2)

/-- C5 witness: two concrete tapes drawing distinct session keys. -/
theorem C5_independent_session_keys_witness :
    randBytes (fun _ => 0) 0 32 ≠ randBytes (fun _ => 1) 0 32 ∧
    sendMessage "hi" (generateKeyPair 0).publicKey (generateKeyPair 1).publicKey
        (fun _ => 0) (fun _ => 1)
      = some (msgBundle 0 "hi" (fun _ => 0), msgBundle 1 "hi" (fun _ => 1)) ∧
    (msgBundle 0 "hi" (fun _ => 0)).encKey ≠ (msgBundle 1 "hi" (fun _ => 1)).encKey :=
  ⟨by decide,
    (C5_independent_session_keys "hi" 0 1 (fun _ => 0) (fun _ => 1) (by decide)).1,
    (C5_independent_session_keys "hi" 0 1 (fun _ => 0) (fun _ => 1) (by decide)).2.2.2.2.2.1⟩

/-- C6: every authentication failure inside decryptPrivateKey — a wrong
passphrase as well as a tampered envelope — surfaces as one and the same
failure outcome of the unwrap operation, with no distinction observable by
the caller. -/
theorem C6_uniform_unwrap_failure (key pass pass2 : String) (g : Nat → Nat) (i j : Nat) :
    (pass2 ≠ pass → decryptPrivateKey (encryptPrivateKey key pass g) pass2 = none) ∧
    (∀ ctB, base64ToArray (encryptPrivateKey key pass g).ct = some ctB → i < ctB.length →
      decryptPrivateKey
        { ct := arrayToBase64 (flipBit ctB i j)
          salt := (encryptPrivateKey key pass g).salt
          iv := (encryptPrivateKey key pass g).iv } pass = none) := by
  constructor
  · exact decryptPrivateKey_wrong_pass key pass pass2 g
  · intro ctB hdec hi
    have hct : ctB = aesSeal (deriveKey pass (randBytes g 0 16))
        (encL (randBytes g 16 12)) (strToBytes key) := by
      have h0 : base64ToArray (encryptPrivateKey key pass g).ct
          = some (aesSeal (deriveKey pass (randBytes g 0 16))
            (encL (randBytes g 16 12)) (strToBytes key)) :=
        base64ToArray_arrayToBase64 _
      rw [hdec] at h0
      exact Option.some.inj h0
    subst hct
    unfold decryptPrivateKey encryptPrivateKey
    simp only [base64ToArray_arrayToBase64]
    rw [aesOpen_flip (deriveKey pass (randBytes g 0 16)) (encL (randBytes g 16 12))
      (strToBytes key) i j hi]

theorem parseBackupFile_encryptBackup (d : BackupData) (pw : String) (g : Nat → Nat) (now : Nat) :
    parseBackupFile (encryptBackup d pw g now) = some
      { magic := BACKUP_MAGIC
        version := BACKUP_VERSION
        createdAt := now
        salt := arrayToBase64 (randBytes g 0 16)
        iv := arrayToBase64 (randBytes g 16 12)
        ciphertext := arrayToBase64 (aesSeal (deriveBackupKey pw (randBytes g 0 16))
          (encL (randBytes g 16 12)) (serializeBackupData d))
        stats := d.stats
        owner := d.owner.username } := by
  unfold encryptBackup
  exact parseBackupFile_serializeBackupFile _

/-- C7: key derivation is a deterministic function of the passphrase, the
salt and the iteration count, the iteration counts are fixed caller
constants — exactly 100000 for private-key protection and exactly 150000
for backup protection, both with the SHA-256 based derivation — and both
call sites draw a 16-byte salt, stored in the envelope. -/
theorem C7_derivation_constants (pass pw key2 p2 : String) (salt s2 : List Nat)
    (g : Nat → Nat) (d : BackupData) (now : Nat) :
    deriveKey pass salt = deriveKeyPBKDF2 (strToBytes pass) salt 100000 ∧
    deriveBackupKey pw salt = deriveKeyPBKDF2 (strToBytes pw) salt 150000 ∧
    (pass = p2 → salt = s2 → deriveKey pass salt = deriveKey p2 s2) ∧
    (pw = p2 → salt = s2 → deriveBackupKey pw salt = deriveBackupKey p2 s2) ∧
    base64ToArray (encryptPrivateKey key2 pass g).salt = some (randBytes g 0 16) ∧
    (∀ pkg, parseBackupFile (encryptBackup d pw g now) = some pkg →
      base64ToArray pkg.salt = some (randBytes g 0 16)) ∧
    (randBytes g 0 16).length = 16 := by
  refine ⟨rfl, rfl, ?_, ?_, ?_, ?_, randBytes_length g 0 16⟩
  · intro h1 h2; rw [h1, h2]
  · intro h1 h2; rw [h1, h2]
  · exact base64ToArray_arrayToBase64 _
  · intro pkg hp
    rw [parseBackupFile_encryptBackup] at hp
    have hpkg := Option.some.inj hp
    rw [← hpkg]
    exact base64ToArray_arrayToBase64 _

/-- C7 witness at concrete inputs. -/
theorem C7_derivation_constants_witness :
    deriveKey "p" [] = deriveKeyPBKDF2 (strToBytes "p") [] 100000 ∧
    deriveBackupKey "p" [] = deriveKeyPBKDF2 (strToBytes "p") [] 150000 ∧
    deriveKey "p" [] = deriveKey "p" [] ∧
    deriveBackupKey "p" [] = deriveBackupKey "p" [] ∧
    base64ToArray (encryptPrivateKey "sk" "p" zeroTape).salt
      = some (randBytes zeroTape 0 16) ∧
    base64ToArray
        { magic := BACKUP_MAGIC
          version := BACKUP_VERSION
          createdAt := 0
          salt := arrayToBase64 (randBytes zeroTape 0 16)
          iv := arrayToBase64 (randBytes zeroTape 16 12)
          ciphertext := arrayToBase64 (aesSeal (deriveBackupKey "p" (randBytes zeroTape 0 16))
            (encL (randBytes zeroTape 16 12)) (serializeBackupData cexPayload))
          stats := cexPayload.stats
          owner := cexPayload.owner.username : BackupPkg }.salt
      = some (randBytes zeroTape 0 16) ∧
    (randBytes zeroTape 0 16).length = 16 := by
  have h := C7_derivation_constants "p" "p" "sk" "p" [] [] zeroTape cexPayload 0
  exact ⟨h.1, h.2.1, h.2.2.1 rfl rfl, h.2.2.2.1 rfl rfl, h.2.2.2.2.1,
    h.2.2.2.2.2.1 _ (parseBackupFile_encryptBackup cexPayload "p" zeroTape 0),
    h.2.2.2.2.2.2⟩


theorem flipBit_ne (l : List Nat) (i j : Nat) (h : i < l.length) : flipBit l i j ≠ l :=
  set_flip_ne l i j h

/-- C9: flipping any single bit of the binary ciphertext, wrapped key or iv
of a bundle produced by encryptMessage makes decryptMessage with the
matching private key fail with an error; no plaintext, corrupted or
otherwise, is ever returned from a tampered bundle. -/
theorem C9_tamper_detection (seed : Nat) (P : String) (g : Nat → Nat) (i j : Nat) :
    (∀ ctB, base64ToArray (msgBundle seed P g).ciphertext = some ctB → i < ctB.length →
      decryptMessage
        { ciphertext := arrayToBase64 (flipBit ctB i j)
          encKey := (msgBundle seed P g).encKey
          iv := (msgBundle seed P g).iv }
        (generateKeyPair seed).privateKey = none) ∧
    (∀ ekB, base64ToArray (msgBundle seed P g).encKey = some ekB → i < ekB.length →
      decryptMessage
        { ciphertext := (msgBundle seed P g).ciphertext
          encKey := arrayToBase64 (flipBit ekB i j)
          iv := (msgBundle seed P g).iv }
        (generateKeyPair seed).privateKey = none) ∧
    (∀ ivB, base64ToArray (msgBundle seed P g).iv = some ivB → i < ivB.length →
      decryptMessage
        { ciphertext := (msgBundle seed P g).ciphertext
          encKey := (msgBundle seed P g).encKey
          iv := arrayToBase64 (flipBit ivB i j) }
        (generateKeyPair seed).privateKey = none) := by
  have hctproj : (msgBundle seed P g).ciphertext
      = arrayToBase64 (aesSeal (encL (randBytes g 0 32)) (encL (randBytes g 32 12)) (strToBytes P)) := rfl
  have hekproj : (msgBundle seed P g).encKey
      = arrayToBase64 (rsaEncryptRaw seed (randBytes g 0 32)) := rfl
  have hivproj : (msgBundle seed P g).iv = arrayToBase64 (randBytes g 32 12) := rfl
  refine ⟨?_, ?_, ?_⟩
  · -- bit flip in the ciphertext
    intro ctB hdec hi
    have hct : ctB = aesSeal (encL (randBytes g 0 32)) (encL (randBytes g 32 12)) (strToBytes P) := by
      rw [hctproj, base64ToArray_arrayToBase64] at hdec
      exact (Option.some.inj hdec).symm
    subst hct
    unfold decryptMessage
    rw [importPrivateKey_generateKeyPair, hekproj, hivproj]
    simp only [base64ToArray_arrayToBase64, rsaDecryptRaw_rsaEncryptRaw]
    rw [aesOpen_flip (encL (randBytes g 0 32)) (encL (randBytes g 32 12)) (strToBytes P) i j hi]
  · -- bit flip in the wrapped key
    intro ekB hdec hi
    have hek : ekB = rsaEncryptRaw seed (randBytes g 0 32) := by
      rw [hekproj, base64ToArray_arrayToBase64] at hdec
      exact (Option.some.inj hdec).symm
    subst hek
    have hi0 : i = 0 := by
      have hlen : (rsaEncryptRaw seed (randBytes g 0 32)).length = 1 := rfl
      omega
    subst hi0
    have hflip : flipBit (rsaEncryptRaw seed (randBytes g 0 32)) 0 j
        = [Nat.pair seed (encL (randBytes g 0 32)) ^^^ 2 ^ j] := rfl
    rw [hflip]
    unfold decryptMessage
    rw [importPrivateKey_generateKeyPair, hctproj, hivproj]
    rw [base64ToArray_arrayToBase64]
    cases hr : rsaDecryptRaw seed [Nat.pair seed (encL (randBytes g 0 32)) ^^^ 2 ^ j] with
    | none => simp only [hr]
    | some m =>
      have hcanon := rsaDecryptRaw_canonical seed _ m hr
      have h1 : Nat.pair seed (encL (randBytes g 0 32)) ^^^ 2 ^ j
          = Nat.pair seed (encL m) := by
        have h2 : ([Nat.pair seed (encL (randBytes g 0 32)) ^^^ 2 ^ j] : List Nat)
            = [Nat.pair seed (encL m)] := hcanon
        exact List.cons.inj h2 |>.1
      have hm : encL m ≠ encL (randBytes g 0 32) := by
        intro hEq
        apply flip_val_ne (Nat.pair seed (encL (randBytes g 0 32))) j
        rw [h1, hEq]
      have haes : aesOpen (encL m) (encL (randBytes g 32 12))
          (aesSeal (encL (randBytes g 0 32)) (encL (randBytes g 32 12)) (strToBytes P)) = none :=
        aesOpen_wrong_params (encL (randBytes g 0 32)) (encL m)
          (encL (randBytes g 32 12)) (encL (randBytes g 32 12)) (strToBytes P) (Or.inl hm)
      simp only [hr, base64ToArray_arrayToBase64, haes]
  · -- bit flip in the iv
    intro ivB hdec hi
    have hiv : ivB = randBytes g 32 12 := by
      rw [hivproj, base64ToArray_arrayToBase64] at hdec
      exact (Option.some.inj hdec).symm
    subst hiv
    have hne : encL (flipBit (randBytes g 32 12) i j) ≠ encL (randBytes g 32 12) := by
      intro hEq
      exact flipBit_ne (randBytes g 32 12) i j hi (encL_injective hEq)
    unfold decryptMessage
    rw [importPrivateKey_generateKeyPair, hctproj, hekproj]
    simp only [base64ToArray_arrayToBase64, rsaDecryptRaw_rsaEncryptRaw]
    rw [aesOpen_wrong_params (encL (randBytes g 0 32)) (encL (randBytes g 0 32))
      (encL (randBytes g 32 12)) (encL (flipBit (randBytes g 32 12) i j)) (strToBytes P)
      (Or.inr hne)]

/-- C9 witness: concrete one-bit flips in each field of a concrete bundle. -/
theorem C9_tamper_detection_witness :
    decryptMessage
      { ciphertext := arrayToBase64 (flipBit (aesSeal (encL (randBytes zeroTape 0 32))
          (encL (randBytes zeroTape 32 12)) (strToBytes "hi")) 0 0)
        encKey := (msgBundle 0 "hi" zeroTape).encKey
        iv := (msgBundle 0 "hi" zeroTape).iv }
      (generateKeyPair 0).privateKey = none ∧
    decryptMessage
      { ciphertext := (msgBundle 0 "hi" zeroTape).ciphertext
        encKey := arrayToBase64 (flipBit (rsaEncryptRaw 0 (randBytes zeroTape 0 32)) 0 0)
        iv := (msgBundle 0 "hi" zeroTape).iv }
      (generateKeyPair 0).privateKey = none ∧
    decryptMessage
      { ciphertext := (msgBundle 0 "hi" zeroTape).ciphertext
        encKey := (msgBundle 0 "hi" zeroTape).encKey
        iv := arrayToBase64 (flipBit (randBytes zeroTape 32 12) 0 0) }
      (generateKeyPair 0).privateKey = none :=
  ⟨(C9_tamper_detection 0 "hi" zeroTape 0 0).1
      (aesSeal (encL (randBytes zeroTape 0 32)) (encL (randBytes zeroTape 32 12)) (strToBytes "hi"))
      (base64ToArray_arrayToBase64 _) (by decide),
    (C9_tamper_detection 0 "hi" zeroTape 0 0).2.1
      (rsaEncryptRaw 0 (randBytes zeroTape 0 32))
      (base64ToArray_arrayToBase64 _) (by decide),
    (C9_tamper_detection 0 "hi" zeroTape 0 0).2.2
      (randBytes zeroTape 32 12)
      (base64ToArray_arrayToBase64 _) (by decide)⟩

/-- C6 witness: a wrong passphrase and a tampered envelope produce the same
failure outcome. -/
theorem C6_uniform_unwrap_failure_witness :
    decryptPrivateKey (encryptPrivateKey "sk" "p" zeroTape) "q" = none ∧
    decryptPrivateKey
      { ct := arrayToBase64 (flipBit (aesSeal (deriveKey "p" (randBytes zeroTape 0 16))
          (encL (randBytes zeroTape 16 12)) (strToBytes "sk")) 0 0)
        salt := (encryptPrivateKey "sk" "p" zeroTape).salt
        iv := (encryptPrivateKey "sk" "p" zeroTape).iv } "p" = none :=
  ⟨(C6_uniform_unwrap_failure "sk" "p" "q" zeroTape 0 0).1 (by decide),
    (C6_uniform_unwrap_failure "sk" "p" "q" zeroTape 0 0).2
      (aesSeal (deriveKey "p" (randBytes zeroTape 0 16))
        (encL (randBytes zeroTape 16 12)) (strToBytes "sk"))
      (base64ToArray_arrayToBase64 _) (by decide)⟩

/-- C10: in decryptBackup, an unparseable outer document fails with the
could-not-parse error and a parseable document with a non-matching magic
fails with the not-a-backup error; once the document parses and the magic
matches, every failure — invalid base64 in the salt, iv or ciphertext
fields, an authentication failure from a wrong password or tampered
ciphertext, or decrypted bytes that are not a serialized payload — is
reported as the single wrong-backup-password error. -/
theorem C10_error_taxonomy (content : Nat) (pw : String) :
    (parseBackupFile content = none →
      decryptBackup content pw = Except.error BackupError.invalidJson) ∧
    (∀ pkg, parseBackupFile content = some pkg → pkg.magic ≠ BACKUP_MAGIC →
      decryptBackup content pw = Except.error BackupError.invalidMagic) ∧
    (∀ pkg e, parseBackupFile content = some pkg → pkg.magic = BACKUP_MAGIC →
      decryptBackup content pw = Except.error e → e = BackupError.wrongPassword) := by
  refine ⟨decryptBackup_parse_fail content pw,
    fun pkg hp hm => decryptBackup_magic_fail content pw pkg hp hm, ?_⟩
  intro pkg e hp hm hr
  rw [decryptBackup_parsed pkg content pw hp hm] at hr
  cases hs : base64ToArray pkg.salt with
  | none => rw [hs] at hr; exact (Except.error.inj hr).symm
  | some salt =>
    rw [hs] at hr
    cases hi : base64ToArray pkg.iv with
    | none => rw [hi] at hr; exact (Except.error.inj hr).symm
    | some iv =>
      rw [hi] at hr
      cases hc : base64ToArray pkg.ciphertext with
      | none => rw [hc] at hr; exact (Except.error.inj hr).symm
      | some ciphertext =>
        rw [hc] at hr
        have hr2 : (match aesOpen (deriveBackupKey pw salt) (encL iv) ciphertext with
            | some decrypted =>
              match deserializeBackupData decrypted with
              | some d => Except.ok d
              | none => Except.error BackupError.wrongPassword
            | none => Except.error BackupError.wrongPassword) = Except.error e := hr
        cases ha : aesOpen (deriveBackupKey pw salt) (encL iv) ciphertext with
        | none => rw [ha] at hr2; exact (Except.error.inj hr2).symm
        | some decrypted =>
          rw [ha] at hr2
          have hr3 : (match deserializeBackupData decrypted with
              | some d => Except.ok d
              | none => Except.error BackupError.wrongPassword) = Except.error e := hr2
          cases hd : deserializeBackupData decrypted with
          | none => rw [hd] at hr3; exact (Except.error.inj hr3).symm
          | some d => rw [hd] at hr3; exact absurd hr3 (by simp)

/-- C10 witness: the three regimes at concrete documents — unparseable
document, wrong magic, and a post-magic failure (invalid base64 salt)
reported as wrong password. -/
theorem C10_error_taxonomy_witness :
    decryptBackup 1 "a" = Except.error BackupError.invalidJson ∧
    decryptBackup wrongMagicFile "a" = Except.error BackupError.invalidMagic ∧
    BackupError.wrongPassword = BackupError.wrongPassword :=
  ⟨(C10_error_taxonomy 1 "a").1 (by decide),
    (C10_error_taxonomy wrongMagicFile "a").2.1 wrongMagicPkg
      (parseBackupFile_serializeBackupFile wrongMagicPkg) (by decide),
    (C10_error_taxonomy badSaltFile "a").2.2 badSaltPkg BackupError.wrongPassword
      (parseBackupFile_serializeBackupFile badSaltPkg) rfl rfl⟩

theorem hexChars_length : ∀ l : List Nat, (hexChars l).length = 2 * l.length
  | [] => rfl
  | b :: t => by
    have ih := hexChars_length t
    show (byteToHex b ++ hexChars t).length = 2 * (b :: t).length
    rw [List.length_append, ih]
    simp only [byteToHex, List.length_cons, List.length_nil, List.length_cons]
    omega

theorem hexChars_mem (l : List Nat) (c : Char) (h : c ∈ hexChars l) :
    ∃ d, d < 16 ∧ c = hexDigitChar d := by
  induction l with
  | nil => simp [hexChars] at h
  | cons b t ih =>
    simp only [hexChars, byteToHex, List.cons_append, List.singleton_append,
      List.mem_cons] at h
    rcases h with h | h | h
    · exact ⟨b / 16 % 16, Nat.mod_lt _ (by omega), h⟩
    · exact ⟨b % 16, Nat.mod_lt _ (by omega), h⟩
    · exact ih h

theorem hexDigitChar_upper_class :
    ∀ d < 16, (hexDigitChar d).toUpper.isDigit
      ∨ ('A' ≤ (hexDigitChar d).toUpper ∧ (hexDigitChar d).toUpper ≤ 'F') := by
  decide

theorem chunkAux_props :
    ∀ (k fuel : Nat) (l : List Char), l.length = 4 * k → k ≤ fuel →
      (chunkAux fuel l).length = k ∧
      (∀ grp ∈ chunkAux fuel l, grp.length = 4) ∧
      (chunkAux fuel l).flatten = l := by
  intro k
  induction k with
  | zero =>
    intro fuel l hl _
    have hnil : l = [] := List.eq_nil_of_length_eq_zero (by omega)
    subst hnil
    cases fuel with
    | zero => exact ⟨rfl, by simp [chunkAux], rfl⟩
    | succ f =>
      refine ⟨?_, ?_, ?_⟩ <;> simp [chunkAux]
  | succ kk ih =>
    intro fuel l hl hf
    cases fuel with
    | zero => omega
    | succ f =>
      have h4 : 4 ≤ l.length := by omega
      have hstep : chunkAux (f + 1) l = l.take 4 :: chunkAux f (l.drop 4) := by
        simp only [chunkAux, h4, if_pos]
      have hdrop : (l.drop 4).length = 4 * kk := by
        rw [List.length_drop]
        omega
      have ihh := ih f (l.drop 4) hdrop (by omega)
      refine ⟨?_, ?_, ?_⟩
      · rw [hstep]
        simp [ihh.1]
      · intro grp hgrp
        rw [hstep] at hgrp
        rcases List.mem_cons.mp hgrp with hg | hg
        · subst hg
          rw [List.length_take]
          omega
        · exact ihh.2.1 grp hg
      · rw [hstep]
        simp only [List.flatten_cons, ihh.2.2]
        exact List.take_append_drop 4 l

theorem chunk4_props (k : Nat) (l : List Char) (hl : l.length = 4 * k) :
    (chunk4 l).length = k ∧ (∀ grp ∈ chunk4 l, grp.length = 4) ∧ (chunk4 l).flatten = l :=
  chunkAux_props k l.length l hl (by omega)

/-- C8: getKeyFingerprint is total and deterministic over valid public keys
and its output is the SHA-256 digest of the key bytes rendered as uppercase
hex, grouped into 16 blocks of 4 characters joined by single spaces: the
blocks concatenate back to the uppercase hex rendering of the digest, and
every character of every block is an uppercase hex character. -/
theorem C8_fingerprint_format (k : Nat) (bytes : List Nat)
    (h : base64ToArray k = some bytes) :
    getKeyFingerprint k
      = some (String.mk (List.intercalate [' ']
          (chunk4 ((hexChars (sha256Model bytes)).map Char.toUpper)))) ∧
    (chunk4 ((hexChars (sha256Model bytes)).map Char.toUpper)).length = 16 ∧
    (∀ grp ∈ chunk4 ((hexChars (sha256Model bytes)).map Char.toUpper), grp.length = 4) ∧
    (∀ grp ∈ chunk4 ((hexChars (sha256Model bytes)).map Char.toUpper), ∀ c ∈ grp,
      c.isDigit ∨ ('A' ≤ c ∧ c ≤ 'F')) ∧
    (chunk4 ((hexChars (sha256Model bytes)).map Char.toUpper)).flatten
      = (hexChars (sha256Model bytes)).map Char.toUpper := by
  have hlen : ((hexChars (sha256Model bytes)).map Char.toUpper).length = 4 * 16 := by
    rw [List.length_map, hexChars_length]
    simp [sha256Model]
  have hprops := chunk4_props 16 ((hexChars (sha256Model bytes)).map Char.toUpper) hlen
  refine ⟨?_, hprops.1, hprops.2.1, ?_, hprops.2.2⟩
  · unfold getKeyFingerprint
    rw [h]
  · intro grp hgrp c hc
    have hcflat : c ∈ (chunk4 ((hexChars (sha256Model bytes)).map Char.toUpper)).flatten :=
      List.mem_flatten.mpr ⟨grp, hgrp, hc⟩
    rw [hprops.2.2] at hcflat
    rcases List.mem_map.mp hcflat with ⟨c0, hc0, hup⟩
    rcases hexChars_mem (sha256Model bytes) c0 hc0 with ⟨d, hd, hcd⟩
    rw [← hup, hcd]
    exact hexDigitChar_upper_class d hd

/-- C8 witness at a concrete valid public key. -/
theorem C8_fingerprint_format_witness :
    getKeyFingerprint (generateKeyPair 0).publicKey
      = some (String.mk (List.intercalate [' ']
          (chunk4 ((hexChars (sha256Model [1, 0])).map Char.toUpper)))) ∧
    (chunk4 ((hexChars (sha256Model [1, 0])).map Char.toUpper)).length = 16 :=
  ⟨(C8_fingerprint_format (generateKeyPair 0).publicKey [1, 0]
      (base64ToArray_arrayToBase64 [1, 0])).1,
    (C8_fingerprint_format (generateKeyPair 0).publicKey [1, 0]
      (base64ToArray_arrayToBase64 [1, 0])).2.1⟩
